import Mathlib

/-!
Verification of the message-routing and presentation layer of the tennis
booking bot (src/bot.py) against its natural-language specification.

Modelling conventions:
* timestamps are seconds since the Unix epoch (UTC), as `Nat`;
* the configured display timezone `TIMEZONE` defaults to `Europe/Moscow`,
  a fixed UTC+3 offset (no DST since 2014);
* Python `str` values whose length or slicing matters are `List Char`
  (Python strings are sequences of code points);
* the database is modelled as explicit tables; the externally owned view
  `v_session_load` is an opaque function;
* the opaque server-side procedures `book_session` / `cancel_booking` are
  parameters of the handler models: they return their single text result
  or raise (modelled with `Except`).
-/

/-- Seconds in a day. -/
def secsPerDay : Nat := 86400

/-- UTC offset, in seconds, of the configured timezone `TIMEZONE`
(default `Europe/Moscow`, UTC+3). -/
def TZ_OFFSET : Nat := 3 * 3600

/-- Python `dt.astimezone(TZ)`: the same instant expressed in local-time
seconds. -/
def astimezone (utcSecs : Nat) : Nat := utcSecs + TZ_OFFSET

/-- Python `datetime.weekday()` of a local time: Monday = 0.  Day 0
(1970-01-01) was a Thursday. -/
def pyWeekday (localSecs : Nat) : Nat := (localSecs / secsPerDay + 3) % 7

/-- Postgres `extract(dow from ...)` of a local time: Sunday = 0. -/
def pgDow (localSecs : Nat) : Nat := (localSecs / secsPerDay + 4) % 7

/-- The hour component of a local time. -/
def hourOf (localSecs : Nat) : Nat := localSecs % secsPerDay / 3600

/-- The minute component of a local time. -/
def minuteOf (localSecs : Nat) : Nat := localSecs % 3600 / 60

/-- Gregorian civil date `(year, month, day)` from days since 1970-01-01
(Hinnant's `civil_from_days`). -/
def civilFromDays (z : Nat) : Nat × Nat × Nat :=
  let z' := z + 719468
  let era := z' / 146097
  let doe := z' % 146097
  let yoe := (doe - doe / 1460 + doe / 36524 - doe / 146096) / 365
  let doy := doe - (365 * yoe + yoe / 4 - yoe / 100)
  let mp := (5 * doy + 2) / 153
  let d := doy - (153 * mp + 2) / 5 + 1
  let m := if mp < 10 then mp + 3 else mp - 9
  (era * 400 + yoe + (if m ≤ 2 then 1 else 0), m, d)

/-- The day-of-month of a local time (strftime `%d`). -/
def dayOf (localSecs : Nat) : Nat := (civilFromDays (localSecs / secsPerDay)).2.2

/-- The month of a local time (strftime `%m`). -/
def monthOf (localSecs : Nat) : Nat := (civilFromDays (localSecs / secsPerDay)).2.1

/-- Two-digit zero-padded decimal, as strftime renders `%d`, `%m`, `%H`, `%M`. -/
def pad2 (n : Nat) : String := if n < 10 then "0" ++ toString n else toString n

/-- bot.py `WDAY_RU`: Russian two-letter weekday abbreviations, Monday first. -/
def WDAY_RU : List String := ["Пн", "Вт", "Ср", "Чт", "Пт", "Сб", "Вс"]

/-- bot.py `fmt_dt`: convert the timestamp to `TZ` and render
`WDAY_RU[d.weekday()]` followed by `%d.%m %H:%M` of the converted time. -/
def fmt_dt (dt : Nat) : String :=
  let d := astimezone dt
  WDAY_RU.getD (pyWeekday d) "" ++ " " ++
    pad2 (dayOf d) ++ "." ++ pad2 (monthOf d) ++ " " ++
    pad2 (hourOf d) ++ ":" ++ pad2 (minuteOf d)

/-- The `%H:%M` rendering of a timestamp converted to `TZ` (used for `ends_at`). -/
def fmt_hm (dt : Nat) : String :=
  let d := astimezone dt
  pad2 (hourOf d) ++ ":" ++ pad2 (minuteOf d)

/-- Python slicing `s[:stop]` with a possibly negative stop. -/
def pySliceTo (s : List Char) (stop : Int) : List Char :=
  if 0 ≤ stop then s.take stop.toNat else s.take (s.length - (-stop).toNat)

/-- bot.py `ALERT_LIMIT`. -/
def ALERT_LIMIT : Nat := 190

/-- bot.py `clip_for_alert`: `(s[:limit - 1] + "…") if len(s) > limit else s`. -/
def clip_for_alert (text : List Char) (limit : Nat) : List Char :=
  if limit < text.length then pySliceTo text ((limit : Int) - 1) ++ ['…'] else text

/-- C6: every timestamp is rendered from its conversion to the configured
timezone: `fmt_dt` yields the Russian weekday abbreviation of the converted
time followed by its day, month, hour and minute; the rendering is a function
of the converted time alone, and the weekday index is a genuine weekday. -/
theorem fmt_dt_localized (dt : Nat) :
    fmt_dt dt =
      WDAY_RU.getD (pyWeekday (astimezone dt)) "" ++ " " ++
        pad2 (dayOf (astimezone dt)) ++ "." ++ pad2 (monthOf (astimezone dt)) ++ " " ++
        pad2 (hourOf (astimezone dt)) ++ ":" ++ pad2 (minuteOf (astimezone dt)) ∧
    (∀ dt2 : Nat, astimezone dt2 = astimezone dt → fmt_dt dt2 = fmt_dt dt) ∧
    pyWeekday (astimezone dt) < 7 := by
  refine ⟨rfl, ?_, ?_⟩
  · intro dt2 h
    simp only [fmt_dt, h]
  · exact Nat.mod_lt _ (by omega)

/-- C8: with a positive limit, `clip_for_alert` never exceeds the limit,
returns short text unchanged, and clips long text to the first `limit - 1`
characters plus one ellipsis, of length exactly `limit`. -/
theorem clip_for_alert_bounds (s : List Char) (limit : Nat) (h : 1 ≤ limit) :
    (clip_for_alert s limit).length ≤ limit ∧
    (s.length ≤ limit → clip_for_alert s limit = s) ∧
    (limit < s.length →
      clip_for_alert s limit = s.take (limit - 1) ++ ['…'] ∧
      (clip_for_alert s limit).length = limit) := by
  have hs : ((limit : Int) - 1).toNat = limit - 1 := by omega
  unfold clip_for_alert pySliceTo
  by_cases hl : limit < s.length
  · rw [if_pos hl, if_pos (by omega : (0 : Int) ≤ (limit : Int) - 1), hs]
    refine ⟨?_, fun hc => by omega, fun _ => ⟨rfl, ?_⟩⟩
    · simp only [List.length_append, List.length_take, List.length_cons,
        List.length_nil]
      omega
    · simp only [List.length_append, List.length_take, List.length_cons,
        List.length_nil]
      omega
  · rw [if_neg hl]
    exact ⟨by omega, fun _ => rfl, fun hc => absurd hc hl⟩

/-- Witness for C8 at a concrete input: a 5-character text clipped to limit 3. -/
theorem clip_for_alert_bounds_witness :
    (clip_for_alert "abcde".data 3).length ≤ 3 ∧
    ("abcde".data.length ≤ 3 → clip_for_alert "abcde".data 3 = "abcde".data) ∧
    (3 < "abcde".data.length →
      clip_for_alert "abcde".data 3 = "abcde".data.take (3 - 1) ++ ['…'] ∧
      (clip_for_alert "abcde".data 3).length = 3) :=
  clip_for_alert_bounds "abcde".data 3 (by decide)

/-! ## UI: inline keyboard (bot.py `kb`) -/

/-- A Telegram inline keyboard button as the bot constructs it. -/
structure InlineKeyboardButton where
  text : String
  callback_data : String
deriving Repr, DecidableEq

/-- The "➕ Разово" single-booking button for session `sid`. -/
def bookSingleBtn (sid : Nat) : InlineKeyboardButton :=
  ⟨"➕ Разово", "book:" ++ toString sid ++ ":single"⟩

/-- The "✅ Абонемент" subscription-booking button for session `sid`. -/
def bookPassBtn (sid : Nat) : InlineKeyboardButton :=
  ⟨"✅ Абонемент", "book:" ++ toString sid ++ ":pass"⟩

/-- The "👥 Участники" participants button for session `sid`. -/
def whoBtn (sid : Nat) : InlineKeyboardButton :=
  ⟨"👥 Участники", "who:" ++ toString sid⟩

/-- The "↩️ Отменить" cancellation button for session `sid`. -/
def cancelBtn (sid : Nat) : InlineKeyboardButton :=
  ⟨"↩️ Отменить", "cancel:" ++ toString sid⟩

/-- bot.py `kb`: row 1 holds the two booking buttons when `can_book`; row 2
holds the participants button plus, when `can_cancel`, the cancel button;
row 1 is appended only when nonempty. -/
def kb (sid : Nat) (can_book can_cancel : Bool) :
    List (List InlineKeyboardButton) :=
  let row1 : List InlineKeyboardButton :=
    if can_book then [bookSingleBtn sid, bookPassBtn sid] else []
  let row2 : List InlineKeyboardButton :=
    [whoBtn sid] ++ (if can_cancel then [cancelBtn sid] else [])
  (if row1.isEmpty then [] else [row1]) ++ [row2]

/-- Button `b` appears somewhere in the keyboard `mk`. -/
def btnIn (mk : List (List InlineKeyboardButton)) (b : InlineKeyboardButton) : Prop :=
  ∃ row ∈ mk, b ∈ row

instance : DecidablePred fun p : List (List InlineKeyboardButton) × InlineKeyboardButton =>
    btnIn p.1 p.2 := fun p => by unfold btnIn; infer_instance

/-! ## Data model -/

/-- A row of `tennis.users`. -/
structure User where
  id : Nat
  phone : String
  tg_id : Nat
  name : String
deriving Repr, DecidableEq

/-- A row of `tennis.sessions`. -/
structure Session where
  id : Nat
  starts_at : Nat
  ends_at : Nat
  cancel_deadline : Nat
  capacity : Option Nat
deriving Repr, DecidableEq

/-- A row of `tennis.bookings`. -/
structure Booking where
  id : Nat
  user_id : Nat
  session_id : Nat
  status : String
  kind : String
deriving Repr, DecidableEq

/-- The database state visible to this layer.  `free_left` models the
externally owned `tennis.v_session_load` projection (opaque here);
`next_user_id` models the users id sequence. -/
structure DB where
  users : List User
  next_user_id : Nat
  sessions : List Session
  bookings : List Booking
  free_left : Nat → Int

/-- bot.py `ensure_user`: SELECT the user id by `tg_id`; when absent, INSERT
one row (phone `tg:<tg_id>`) and return the fresh id. -/
def ensure_user (db : DB) (tg : Nat) (name : String) : Nat × DB :=
  match db.users.find? (fun u => u.tg_id == tg) with
  | some u => (u.id, db)
  | none =>
      (db.next_user_id,
        { db with
          users := db.users ++ [⟨db.next_user_id, "tg:" ++ toString tg, tg, name⟩],
          next_user_id := db.next_user_id + 1 })

/-- The EXISTS subquery of `open_session` (also the lookup of `cb_cancel`):
user `uid` has a `status='booked'` booking for session `sid`. -/
def isBookedIn (db : DB) (uid sid : Nat) : Bool :=
  db.bookings.any fun b =>
    b.session_id == sid && b.user_id == uid && b.status == "booked"

/-! ## open_session: the slot view -/

/-- The row SELECTed by `open_session`: session fields joined with
`v_session_load`, plus the three boolean flags the database computes. -/
structure SessionRow where
  sid : Nat
  starts_at : Nat
  ends_at : Nat
  free_left : Int
  cap : Nat
  is_future : Bool
  can_cancel_deadline : Bool
  is_booked : Bool
deriving Repr, DecidableEq

/-- The SELECT of `open_session` evaluated at time `now`: the session with
id `sid`, `free_left` from the view, `COALESCE(capacity, 8)`,
`is_future = starts_at > now()`, `can_cancel_deadline = now() < cancel_deadline`
and `is_booked` from the EXISTS subquery. -/
def open_session_query (db : DB) (now uid sid : Nat) : Option SessionRow :=
  (db.sessions.find? (fun s => s.id == sid)).map fun s =>
    { sid := s.id
      starts_at := s.starts_at
      ends_at := s.ends_at
      free_left := db.free_left s.id
      cap := s.capacity.getD 8
      is_future := decide (now < s.starts_at)
      can_cancel_deadline := decide (now < s.cancel_deadline)
      is_booked := isBookedIn db uid s.id }

/-- The message text and keyboard `open_session` builds from the fetched row:
`can_book = is_future and free_left > 0 and not is_booked`,
`can_cancel = is_future and is_booked` (the deadline is left to the DB). -/
def open_session_render (row : Option SessionRow) :
    String × Option (List (List InlineKeyboardButton)) :=
  match row with
  | none => ("Слот не найден.", none)
  | some r =>
      let can_book := r.is_future && decide (0 < r.free_left) && !r.is_booked
      let can_cancel := r.is_future && r.is_booked
      let text :=
        "<b>Слот</b>\n" ++ fmt_dt r.starts_at ++ "–" ++ fmt_hm r.ends_at ++ "\n" ++
          "Свободно: " ++ toString r.free_left ++ " из " ++ toString r.cap ++
          (if r.is_future then "" else "\n<b>Запись закрыта: слот уже начался</b>")
      (text, some (kb r.sid can_book can_cancel))

theorem kb_mem_iff (sid : Nat) (cb cc : Bool) :
    (btnIn (kb sid cb cc) (bookSingleBtn sid) ↔ cb = true) ∧
    (btnIn (kb sid cb cc) (bookPassBtn sid) ↔ cb = true) ∧
    (btnIn (kb sid cb cc) (cancelBtn sid) ↔ cc = true) := by
  have h1 : bookSingleBtn sid ≠ whoBtn sid := by
    simp only [bookSingleBtn, whoBtn, ne_eq, InlineKeyboardButton.mk.injEq]
    intro ⟨h, _⟩; exact absurd h (by decide)
  have h2 : bookSingleBtn sid ≠ cancelBtn sid := by
    simp only [bookSingleBtn, cancelBtn, ne_eq, InlineKeyboardButton.mk.injEq]
    intro ⟨h, _⟩; exact absurd h (by decide)
  have h3 : bookPassBtn sid ≠ whoBtn sid := by
    simp only [bookPassBtn, whoBtn, ne_eq, InlineKeyboardButton.mk.injEq]
    intro ⟨h, _⟩; exact absurd h (by decide)
  have h4 : bookPassBtn sid ≠ cancelBtn sid := by
    simp only [bookPassBtn, cancelBtn, ne_eq, InlineKeyboardButton.mk.injEq]
    intro ⟨h, _⟩; exact absurd h (by decide)
  have h5 : cancelBtn sid ≠ whoBtn sid := by
    simp only [cancelBtn, whoBtn, ne_eq, InlineKeyboardButton.mk.injEq]
    intro ⟨h, _⟩; exact absurd h (by decide)
  have h6 : cancelBtn sid ≠ bookSingleBtn sid := h2.symm
  have h7 : cancelBtn sid ≠ bookPassBtn sid := h4.symm
  cases cb <;> cases cc <;>
    simp [kb, btnIn, h1, h2, h3, h4, h5, h6, h7]

/-- C2: for every row the open-session SELECT returns, the booking buttons
are on the keyboard iff the session is in the future, `free_left > 0` and the
user is not already booked; the cancel button iff the session is in the
future and the user is booked; and the row's flags mean exactly the
database-side conditions. -/
theorem open_session_buttons
    (db : DB) (now uid sid : Nat) (r : SessionRow)
    (mk : List (List InlineKeyboardButton))
    (hq : open_session_query db now uid sid = some r)
    (hm : (open_session_render (open_session_query db now uid sid)).2 = some mk) :
    ((btnIn mk (bookSingleBtn r.sid) ∧ btnIn mk (bookPassBtn r.sid)) ↔
        (r.is_future = true ∧ 0 < r.free_left ∧ r.is_booked = false)) ∧
    (btnIn mk (cancelBtn r.sid) ↔ (r.is_future = true ∧ r.is_booked = true)) ∧
    (r.is_future = true ↔ now < r.starts_at) ∧
    r.is_booked = isBookedIn db uid sid := by
  rw [hq] at hm
  unfold open_session_query at hq
  obtain ⟨s, hfind, hr⟩ := Option.map_eq_some'.mp hq
  have hsid : s.id = sid := by
    have := List.find?_some hfind
    simpa using this
  simp only [open_session_render, Option.some.injEq] at hm
  subst hm
  subst hr
  subst hsid
  obtain ⟨k1, k2, k3⟩ := kb_mem_iff s.id
      (decide (now < s.starts_at) && decide (0 < db.free_left s.id) &&
        !isBookedIn db uid s.id)
      (decide (now < s.starts_at) && isBookedIn db uid s.id)
  refine ⟨?_, ?_, by simp, rfl⟩
  · constructor
    · intro ⟨hb, _⟩
      have := k1.mp hb
      simp only [Bool.and_eq_true, decide_eq_true_eq, Bool.not_eq_true'] at this
      exact ⟨by simp [this.1.1], this.1.2, this.2⟩
    · intro ⟨hf, hfl, hb⟩
      simp only [decide_eq_true_eq] at hf
      have hcb : (decide (now < s.starts_at) && decide (0 < db.free_left s.id) &&
          !isBookedIn db uid s.id) = true := by
        simp only [Bool.and_eq_true, decide_eq_true_eq, Bool.not_eq_true']
        exact ⟨⟨by simpa using hf, hfl⟩, hb⟩
      exact ⟨k1.mpr hcb, k2.mpr hcb⟩
  · rw [k3]
    simp

/-- A concrete user for witnesses. -/
def exUser : User := ⟨7, "tg:42", 42, "Анна"⟩

/-- A concrete session for witnesses. -/
def exSession : Session := ⟨1, 1000, 2000, 500, none⟩

/-- A concrete database for witnesses: one user, one session, no bookings,
three free places everywhere. -/
def exDB : DB := ⟨[exUser], 8, [exSession], [], fun _ => 3⟩

/-- The row `open_session_query exDB 500 7 1` returns. -/
def exRow : SessionRow := ⟨1, 1000, 2000, 3, 8, true, false, false⟩

/-- The keyboard rendered for `exRow`. -/
def exMk : List (List InlineKeyboardButton) :=
  [[bookSingleBtn 1, bookPassBtn 1], [whoBtn 1]]

/-- Witness for C2 at a concrete database. -/
theorem open_session_buttons_witness :
    ((btnIn exMk (bookSingleBtn exRow.sid) ∧ btnIn exMk (bookPassBtn exRow.sid)) ↔
        (exRow.is_future = true ∧ 0 < exRow.free_left ∧ exRow.is_booked = false)) ∧
    (btnIn exMk (cancelBtn exRow.sid) ↔
        (exRow.is_future = true ∧ exRow.is_booked = true)) ∧
    (exRow.is_future = true ↔ 500 < exRow.starts_at) ∧
    exRow.is_booked = isBookedIn exDB 7 1 :=
  open_session_buttons exDB 500 7 1 exRow exMk (by decide) (by decide)

/-- C9: the rendered slot view (text and keyboard) does not depend on the
row's `can_cancel_deadline` flag: the cancel button is shown from
`is_future` and `is_booked` alone, the deadline being left to the database
procedure. -/
theorem open_session_deadline_independent (r : SessionRow) (b : Bool) :
    open_session_render (some { r with can_cancel_deadline := b }) =
      open_session_render (some r) := rfl

/-! ## ensure_user idempotence -/

theorem ensure_user_found (db : DB) (tg : Nat) (n : String) (u : User)
    (hf : db.users.find? (fun u => u.tg_id == tg) = some u) :
    ensure_user db tg n = (u.id, db) := by
  unfold ensure_user
  rw [hf]

theorem ensure_user_new (db : DB) (tg : Nat) (n : String)
    (hf : db.users.find? (fun u => u.tg_id == tg) = none) :
    ensure_user db tg n =
      (db.next_user_id,
        { db with
          users := db.users ++ [⟨db.next_user_id, "tg:" ++ toString tg, tg, n⟩],
          next_user_id := db.next_user_id + 1 }) := by
  unfold ensure_user
  rw [hf]

/-- C10: `ensure_user` is idempotent per Telegram user: when a row with this
`tg_id` exists it returns that row's id and changes nothing; otherwise it
appends exactly one row and returns its fresh id; a second call returns the
same id and changes nothing further. -/
theorem ensure_user_idempotent (db : DB) (tg : Nat) (n1 n2 : String) :
    (ensure_user (ensure_user db tg n1).2 tg n2).1 = (ensure_user db tg n1).1 ∧
    (ensure_user (ensure_user db tg n1).2 tg n2).2 = (ensure_user db tg n1).2 ∧
    ((∃ u ∈ db.users, u.tg_id = tg) →
      (ensure_user db tg n1).2 = db ∧
      ∃ u ∈ db.users, u.tg_id = tg ∧ (ensure_user db tg n1).1 = u.id) ∧
    ((¬ ∃ u ∈ db.users, u.tg_id = tg) →
      (ensure_user db tg n1).2.users =
        db.users ++ [⟨db.next_user_id, "tg:" ++ toString tg, tg, n1⟩] ∧
      (ensure_user db tg n1).1 = db.next_user_id) ∧
    (ensure_user db tg n1).2.users.length ≤ db.users.length + 1 := by
  cases hf : db.users.find? (fun u => u.tg_id == tg) with
  | some u =>
      have hu : u ∈ db.users := List.mem_of_find?_eq_some hf
      have htg : u.tg_id = tg := by simpa using List.find?_some hf
      rw [ensure_user_found db tg n1 u hf]
      rw [ensure_user_found db tg n2 u hf]
      exact ⟨rfl, rfl, fun _ => ⟨rfl, u, hu, htg, rfl⟩,
        fun hne => absurd ⟨u, hu, htg⟩ hne, Nat.le_succ _⟩
  | none =>
      rw [ensure_user_new db tg n1 hf]
      have hnone : ∀ v ∈ db.users, ¬((fun u : User => u.tg_id == tg) v = true) :=
        List.find?_eq_none.mp hf
      set newU : User := ⟨db.next_user_id, "tg:" ++ toString tg, tg, n1⟩ with hnewU
      have hf2 : (db.users ++ [newU]).find? (fun u => u.tg_id == tg) = some newU := by
        rw [List.find?_append, hf]
        simp [hnewU]
      rw [ensure_user_found _ tg n2 newU hf2]
      refine ⟨rfl, rfl, ?_, fun _ => ⟨rfl, rfl⟩, by simp⟩
      intro ⟨u, hu, htg⟩
      exact absurd (by simpa using htg) (hnone u hu)

/-! ## /week -/

/-- A row of the /week SELECT: id, start, free_left, `COALESCE(capacity, 8)`. -/
structure WeekRow where
  sid : Nat
  starts_at : Nat
  free_left : Int
  cap : Nat
deriving Repr, DecidableEq

/-- Ascending start time (the ORDER BY of /week). -/
def startsLE (a b : WeekRow) : Prop := a.starts_at ≤ b.starts_at

instance : DecidableRel startsLE := fun _ _ => Nat.decLe _ _

instance : IsTotal WeekRow startsLE := ⟨fun _ _ => Nat.le_total _ _⟩

instance : IsTrans WeekRow startsLE := ⟨fun _ _ _ => Nat.le_trans⟩

/-- Postgres `date_trunc('week', now())` with the database session timezone
`dbOff` seconds east of UTC: the preceding session-local Monday 00:00. -/
def date_trunc_week (dbOff now : Nat) : Nat :=
  ((now + dbOff) / secsPerDay - ((now + dbOff) / secsPerDay + 3) % 7) *
      secsPerDay - dbOff

/-- The dow/hour condition of the /week SQL on the Moscow-local start time:
`dow in (1,4) and hour = 20`, or `dow = 0 and hour in (20,21)`. -/
def slotFilter (starts_at : Nat) : Bool :=
  ((pgDow (astimezone starts_at) == 1 || pgDow (astimezone starts_at) == 4) &&
      hourOf (astimezone starts_at) == 20) ||
    (pgDow (astimezone starts_at) == 0 &&
      (hourOf (astimezone starts_at) == 20 || hourOf (astimezone starts_at) == 21))

/-- The /week SELECT: sessions of the current week, strictly future, passing
the dow/hour condition, joined with the view, ordered by start time. -/
def week_query (db : DB) (dbOff now : Nat) : List WeekRow :=
  List.insertionSort startsLE
    ((db.sessions.filter fun s =>
        decide (date_trunc_week dbOff now ≤ s.starts_at) &&
          decide (s.starts_at < date_trunc_week dbOff now + 7 * secsPerDay) &&
          decide (now < s.starts_at) && slotFilter s.starts_at).map
      fun s => ⟨s.id, s.starts_at, db.free_left s.id, s.capacity.getD 8⟩)

/-- The /week handler's reply text: the empty-week message, or the header
plus one line per session. -/
def week_handler (db : DB) (dbOff now : Nat) : String :=
  if (week_query db dbOff now).isEmpty then "На эту неделю слоты ещё не созданы."
  else
    String.intercalate "\n" ("<b>Расписание недели</b>" ::
      (week_query db dbOff now).map fun r =>
        "• " ++ fmt_dt r.starts_at ++ "  (" ++ toString r.free_left ++ "/" ++
          toString r.cap ++ ")")

/-- The claim's fixed weekly schedule read literally: the Moscow-local start
is exactly Monday or Thursday 20:00, or Sunday 20:00 or 21:00 (minute and
second zero). -/
def onFixedScheduleExact (starts_at : Nat) : Prop :=
  ((pgDow (astimezone starts_at) = 1 ∨ pgDow (astimezone starts_at) = 4) ∧
      hourOf (astimezone starts_at) = 20 ∧ astimezone starts_at % 3600 = 0) ∨
    (pgDow (astimezone starts_at) = 0 ∧
      (hourOf (astimezone starts_at) = 20 ∨ hourOf (astimezone starts_at) = 21) ∧
      astimezone starts_at % 3600 = 0)

/-- The amended schedule condition: the Moscow-local start falls within the
scheduled hours (hour 20 on Monday or Thursday; hour 20 or 21 on Sunday). -/
def onScheduledHour (starts_at : Nat) : Prop :=
  ((pgDow (astimezone starts_at) = 1 ∨ pgDow (astimezone starts_at) = 4) ∧
      hourOf (astimezone starts_at) = 20) ∨
    (pgDow (astimezone starts_at) = 0 ∧
      (hourOf (astimezone starts_at) = 20 ∨ hourOf (astimezone starts_at) = 21))

theorem slotFilter_iff (t : Nat) : slotFilter t = true ↔ onScheduledHour t := by
  simp [slotFilter, onScheduledHour]

/-- A session starting Monday 1970-01-05 20:30 Moscow time (17:30 UTC). -/
def halfPastSession : Session := ⟨2, 408600, 412200, 365400, none⟩

/-- A database holding only `halfPastSession`. -/
def weekDB : DB := ⟨[], 1, [halfPastSession], [], fun _ => 5⟩

/-- Counterexample to C4 as stated: at Monday 1970-01-05 00:00 UTC, /week
lists a session whose Moscow-local start is Monday 20:30 — inside hour 20
but not at 20:00, so not on the claim's exact fixed schedule. -/
theorem week_lists_halfpast_session :
    week_query weekDB 0 345600 = [⟨2, 408600, 5, 8⟩] ∧
    ¬ onFixedScheduleExact 408600 := by
  constructor
  · decide
  · unfold onFixedScheduleExact
    decide

/-- C4 (amended): /week lists exactly the sessions of the current calendar
week (from its Monday 00:00, session-local, up to but excluding the next
Monday) that are strictly in the future and whose Moscow-local start falls
within the scheduled hours (hour 20 on Monday or Thursday, hour 20 or 21 on
Sunday), ordered by ascending start time; when the list is empty the handler
answers with the empty-week message; and the truncation point is a local
Monday midnight at most a week back. -/
theorem week_query_exact (db : DB) (dbOff now : Nat) :
    (∀ r, r ∈ week_query db dbOff now ↔
      ∃ s ∈ db.sessions,
        date_trunc_week dbOff now ≤ s.starts_at ∧
        s.starts_at < date_trunc_week dbOff now + 7 * secsPerDay ∧
        now < s.starts_at ∧ onScheduledHour s.starts_at ∧
        r = ⟨s.id, s.starts_at, db.free_left s.id, s.capacity.getD 8⟩) ∧
    List.Sorted startsLE (week_query db dbOff now) ∧
    (week_query db dbOff now = [] →
      week_handler db dbOff now = "На эту неделю слоты ещё не созданы.") ∧
    (7 * secsPerDay ≤ now → dbOff < secsPerDay →
      (date_trunc_week dbOff now + dbOff) % secsPerDay = 0 ∧
      pyWeekday (date_trunc_week dbOff now + dbOff) = 0 ∧
      date_trunc_week dbOff now ≤ now ∧
      now < date_trunc_week dbOff now + 7 * secsPerDay) := by
  refine ⟨?_, ?_, ?_, ?_⟩
  · intro r
    unfold week_query
    rw [List.mem_insertionSort, List.mem_map]
    constructor
    · intro ⟨s, hs, hr⟩
      rw [List.mem_filter] at hs
      obtain ⟨hmem, hcond⟩ := hs
      simp only [Bool.and_eq_true, decide_eq_true_eq, slotFilter_iff] at hcond
      exact ⟨s, hmem, hcond.1.1.1, hcond.1.1.2, hcond.1.2, hcond.2, hr.symm⟩
    · intro ⟨s, hmem, h1, h2, h3, h4, hr⟩
      refine ⟨s, ?_, hr.symm⟩
      rw [List.mem_filter]
      refine ⟨hmem, ?_⟩
      simp only [Bool.and_eq_true, decide_eq_true_eq, slotFilter_iff]
      exact ⟨⟨⟨h1, h2⟩, h3⟩, h4⟩
  · exact List.sorted_insertionSort startsLE _
  · intro hempty
    unfold week_handler
    rw [hempty]
    rfl
  · intro hnow hoff
    unfold date_trunc_week pyWeekday secsPerDay at *
    omega

/-! ## /me -/

/-- A row of the /me SELECT: booking id, session start, booking kind. -/
structure MeRow where
  bid : Nat
  starts_at : Nat
  kind : String
deriving Repr, DecidableEq

/-- Ascending session start time (the ORDER BY of /me). -/
def meLE (a b : MeRow) : Prop := a.starts_at ≤ b.starts_at

instance : DecidableRel meLE := fun _ _ => Nat.decLe _ _

instance : IsTotal MeRow meLE := ⟨fun _ _ => Nat.le_total _ _⟩

instance : IsTrans MeRow meLE := ⟨fun _ _ _ => Nat.le_trans⟩

/-- The /me SELECT: the user's `status='booked'` bookings joined with their
session, future sessions only, ordered by session start. -/
def me_query (db : DB) (now uid : Nat) : List MeRow :=
  List.insertionSort meLE
    (db.bookings.filterMap fun b =>
      if b.user_id == uid && b.status == "booked" then
        (db.sessions.find? fun s => s.id == b.session_id).bind fun s =>
          if now < s.starts_at then some ⟨b.id, s.starts_at, b.kind⟩ else none
      else none)

/-- The /me handler's reply text: ensure the user, run the query, then the
empty message or the header plus one line per booking. -/
def me_handler (db : DB) (now tg : Nat) (name : String) : String :=
  if (me_query (ensure_user db tg name).2 now (ensure_user db tg name).1).isEmpty then
    "У вас нет будущих записей."
  else
    String.intercalate "\n" ("<b>Мои записи</b>" ::
      (me_query (ensure_user db tg name).2 now (ensure_user db tg name).1).map
        fun r => "• " ++ fmt_dt r.starts_at ++ " — " ++ r.kind)

theorem find?_session_of_nodup (l : List Session) (s : Session)
    (hnd : (l.map Session.id).Nodup) (hmem : s ∈ l) :
    l.find? (fun x => x.id == s.id) = some s := by
  induction l with
  | nil => cases hmem
  | cons h t ih =>
      rw [List.map_cons, List.nodup_cons] at hnd
      rcases List.mem_cons.mp hmem with rfl | hmt
      · rw [List.find?_cons_of_pos _ (by simp)]
      · have hne : (h.id == s.id) = false := by
          simp only [beq_eq_false_iff_ne, ne_eq]
          intro he
          exact hnd.1 (he ▸ List.mem_map_of_mem Session.id hmt)
        simp only [List.find?_cons, hne]
        exact ih hnd.2 hmt

/-- C5: /me lists exactly the requesting user's own bookings with
status 'booked' whose session starts strictly in the future, ordered by
ascending session start; and an empty result yields the empty message. -/
theorem me_lists_own_future (db : DB) (now uid : Nat)
    (hnd : (db.sessions.map Session.id).Nodup) :
    (∀ r, r ∈ me_query db now uid ↔
      ∃ b ∈ db.bookings, b.user_id = uid ∧ b.status = "booked" ∧
        ∃ s ∈ db.sessions, s.id = b.session_id ∧ now < s.starts_at ∧
          r = ⟨b.id, s.starts_at, b.kind⟩) ∧
    List.Sorted meLE (me_query db now uid) ∧
    (∀ tg : Nat, ∀ name : String,
      me_query (ensure_user db tg name).2 now (ensure_user db tg name).1 = [] →
      me_handler db now tg name = "У вас нет будущих записей.") := by
  refine ⟨?_, List.sorted_insertionSort meLE _, ?_⟩
  · intro r
    unfold me_query
    rw [List.mem_insertionSort, List.mem_filterMap]
    constructor
    · intro ⟨b, hb, hfb⟩
      by_cases hcond : (b.user_id == uid && b.status == "booked") = true
      · rw [if_pos hcond] at hfb
        simp only [Bool.and_eq_true, beq_iff_eq] at hcond
        obtain ⟨s, hfind, hfs⟩ := Option.bind_eq_some.mp hfb
        have hsmem : s ∈ db.sessions := List.mem_of_find?_eq_some hfind
        have hsid : s.id = b.session_id := by simpa using List.find?_some hfind
        by_cases hlt : now < s.starts_at
        · rw [if_pos hlt, Option.some.injEq] at hfs
          exact ⟨b, hb, hcond.1, hcond.2, s, hsmem, hsid, hlt, hfs.symm⟩
        · rw [if_neg hlt] at hfs
          cases hfs
      · rw [if_neg hcond] at hfb
        cases hfb
    · intro ⟨b, hb, huid, hstat, s, hs, hsid, hlt, hr⟩
      refine ⟨b, hb, ?_⟩
      rw [if_pos (by simp [huid, hstat])]
      have hfind : db.sessions.find? (fun x => x.id == b.session_id) = some s := by
        rw [← hsid]
        exact find?_session_of_nodup db.sessions s hnd hs
      rw [hfind]
      simp only [Option.some_bind]
      rw [if_pos hlt, hr]
  · intro tg name hempty
    unfold me_handler
    rw [hempty]
    rfl

/-- A concrete booking for witnesses. -/
def exBooking : Booking := ⟨11, 7, 1, "booked", "single"⟩

/-- Like `exDB` but with one booking of `exUser` on `exSession`. -/
def exDBBooked : DB := ⟨[exUser], 8, [exSession], [exBooking], fun _ => 2⟩

/-- Witness for C5 at a concrete database. -/
theorem me_lists_own_future_witness :
    (∀ r, r ∈ me_query exDBBooked 500 7 ↔
      ∃ b ∈ exDBBooked.bookings, b.user_id = 7 ∧ b.status = "booked" ∧
        ∃ s ∈ exDBBooked.sessions, s.id = b.session_id ∧ 500 < s.starts_at ∧
          r = ⟨b.id, s.starts_at, b.kind⟩) ∧
    List.Sorted meLE (me_query exDBBooked 500 7) ∧
    (∀ tg : Nat, ∀ name : String,
      me_query (ensure_user exDBBooked tg name).2 500
          (ensure_user exDBBooked tg name).1 = [] →
      me_handler exDBBooked 500 tg name = "У вас нет будущих записей.") :=
  me_lists_own_future exDBBooked 500 7 (by decide)

/-! ## cb_book / cb_cancel -/

/-- A user-visible action of a callback handler: a toast
(`c.answer(..., show_alert=False)`), a popup (`show_alert=True`), a reply
message, or re-opening the session view. -/
inductive UIAct where
  | toast (text : List Char)
  | alert (text : List Char)
  | reply (text : List Char)
  | openSession (sid : Nat)
deriving Repr, DecidableEq

/-- bot.py `safe_alert` on the path where sending succeeds: answer with the
clipped text, and when the text was clipped (and the popup was requested)
also reply with the full text. -/
def safe_alert (text : List Char) (show_alert : Bool) : List UIAct :=
  (if show_alert then [UIAct.alert (clip_for_alert text ALERT_LIMIT)]
    else [UIAct.toast (clip_for_alert text ALERT_LIMIT)]) ++
    (if (clip_for_alert text ALERT_LIMIT).length < text.length && show_alert then
      [UIAct.reply text] else [])

/-- A call made to one of the two opaque server-side procedures. -/
inductive DBCall where
  | book_session (uid sid : Nat) (kind : List Char)
  | cancel_booking (bid : Nat)
deriving Repr, DecidableEq

/-- The database procedures' success status text. -/
def okText : List Char := "OK".data

/-- The shared tail of cb_book / cb_cancel: a success toast when the
procedure returned "OK", otherwise `safe_alert` with the returned text; then
re-open the session view. -/
def surface_result (msg ok_note : List Char) (sid : Nat) : List UIAct :=
  (if msg = okText then [UIAct.toast ok_note] else safe_alert msg true) ++
    [UIAct.openSession sid]

/-- bot.py `cb_book` on the path where the connection and `ensure_user`
succeed: ensure the user, call `tennis.book_session(uid, sid, kind)` once
(`bookp` models the opaque procedure: its single text result, or the raised
exception), map an exception to an "Ошибка записи: …" message, then surface
the result.  Returns the updated database, the procedure calls made and the
UI actions. -/
def cb_book_run (db : DB)
    (bookp : Nat → Nat → List Char → Except (List Char) (List Char))
    (tg : Nat) (name : String) (sid : Nat) (kind : List Char) :
    DB × List DBCall × List UIAct :=
  ((ensure_user db tg name).2,
    [DBCall.book_session (ensure_user db tg name).1 sid kind],
    surface_result
      (match bookp (ensure_user db tg name).1 sid kind with
        | Except.ok m => m
        | Except.error e => "Ошибка записи: ".data ++ e)
      "Записано ✅".data sid)

/-- bot.py `cb_cancel` on the path where the connection and `ensure_user`
succeed: ensure the user, look up the active booking; when none, only show
the "no active booking" popup; otherwise call `tennis.cancel_booking(bid)`
once (`cancelp` models the opaque procedure), map an exception to an
"Ошибка отмены: …" message, then surface the result. -/
def cb_cancel_run (db : DB) (cancelp : Nat → Except (List Char) (List Char))
    (tg : Nat) (name : String) (sid : Nat) :
    DB × List DBCall × List UIAct :=
  match (ensure_user db tg name).2.bookings.find? (fun b =>
      b.user_id == (ensure_user db tg name).1 && b.session_id == sid &&
        b.status == "booked") with
  | none => ((ensure_user db tg name).2, [], [UIAct.alert "У вас нет активной записи.".data])
  | some b =>
      ((ensure_user db tg name).2,
        [DBCall.cancel_booking b.id],
        surface_result
          (match cancelp b.id with
            | Except.ok m => m
            | Except.error e => "Ошибка отмены: ".data ++ e)
          "Отменено ✅".data sid)

/-- The text `t` is shown to the user in full: as a popup or as a reply. -/
def displays (acts : List UIAct) (t : List Char) : Prop :=
  UIAct.alert t ∈ acts ∨ UIAct.reply t ∈ acts

theorem displays_safe_alert (t : List Char) : displays (safe_alert t true) t := by
  unfold displays safe_alert
  by_cases hl : ALERT_LIMIT < t.length
  · right
    have : (clip_for_alert t ALERT_LIMIT).length < t.length := by
      have := (clip_for_alert_bounds t ALERT_LIMIT (by decide)).1
      omega
    simp [this]
  · left
    have : clip_for_alert t ALERT_LIMIT = t :=
      (clip_for_alert_bounds t ALERT_LIMIT (by decide)).2.1 (by omega)
    simp [this]

theorem surface_result_ok (ok_note : List Char) (sid : Nat) :
    UIAct.toast ok_note ∈ surface_result okText ok_note sid := by
  simp [surface_result]

theorem surface_result_not_ok (msg ok_note : List Char) (sid : Nat)
    (h : msg ≠ okText) : displays (surface_result msg ok_note sid) msg := by
  unfold surface_result
  rw [if_neg h]
  rcases displays_safe_alert msg with hm | hm
  · exact Or.inl (List.mem_append_left _ hm)
  · exact Or.inr (List.mem_append_left _ hm)

/-- C1: both handlers surface the procedure's single-row text status: "OK"
yields the success toast, any other returned text is displayed to the user
verbatim (as the popup, or as a full reply when the popup had to be
clipped). -/
theorem handlers_surface_status (db : DB) (tg : Nat) (name : String)
    (sid : Nat) (kind msg : List Char)
    (bookp : Nat → Nat → List Char → Except (List Char) (List Char))
    (cancelp : Nat → Except (List Char) (List Char)) (b : Booking)
    (hb : bookp (ensure_user db tg name).1 sid kind = Except.ok msg)
    (hf : (ensure_user db tg name).2.bookings.find? (fun x =>
        x.user_id == (ensure_user db tg name).1 && x.session_id == sid &&
          x.status == "booked") = some b)
    (hc : cancelp b.id = Except.ok msg) :
    (msg = okText →
      UIAct.toast "Записано ✅".data ∈ (cb_book_run db bookp tg name sid kind).2.2 ∧
      UIAct.toast "Отменено ✅".data ∈ (cb_cancel_run db cancelp tg name sid).2.2) ∧
    (msg ≠ okText →
      displays (cb_book_run db bookp tg name sid kind).2.2 msg ∧
      displays (cb_cancel_run db cancelp tg name sid).2.2 msg) := by
  simp only [cb_book_run, cb_cancel_run, hb, hf, hc]
  constructor
  · intro hok
    subst hok
    exact ⟨surface_result_ok _ _, surface_result_ok _ _⟩
  · intro hnok
    exact ⟨surface_result_not_ok _ _ _ hnok, surface_result_not_ok _ _ _ hnok⟩

/-- Witness for C1: a concrete database, a procedure answering "Мест нет". -/
theorem handlers_surface_status_witness :
    ("Мест нет".data = okText →
      UIAct.toast "Записано ✅".data ∈
        (cb_book_run exDBBooked (fun _ _ _ => Except.ok "Мест нет".data)
          42 "Анна" 1 "single".data).2.2 ∧
      UIAct.toast "Отменено ✅".data ∈
        (cb_cancel_run exDBBooked (fun _ => Except.ok "Мест нет".data)
          42 "Анна" 1).2.2) ∧
    ("Мест нет".data ≠ okText →
      displays (cb_book_run exDBBooked (fun _ _ _ => Except.ok "Мест нет".data)
        42 "Анна" 1 "single".data).2.2 "Мест нет".data ∧
      displays (cb_cancel_run exDBBooked (fun _ => Except.ok "Мест нет".data)
        42 "Анна" 1).2.2 "Мест нет".data) :=
  handlers_surface_status exDBBooked 42 "Анна" 1 "single".data "Мест нет".data
    (fun _ _ _ => Except.ok "Мест нет".data) (fun _ => Except.ok "Мест нет".data)
    exBooking rfl (by decide) rfl

theorem ensure_user_fst_congr (db1 db2 : DB) (tg : Nat) (n : String)
    (hu : db1.users = db2.users) (hn : db1.next_user_id = db2.next_user_id) :
    (ensure_user db1 tg n).1 = (ensure_user db2 tg n).1 := by
  unfold ensure_user
  rw [hu, hn]
  cases db2.users.find? (fun u => u.tg_id == tg) <;> rfl

theorem ensure_user_bookings (db : DB) (tg : Nat) (n : String) :
    (ensure_user db tg n).2.bookings = db.bookings := by
  unfold ensure_user
  cases db.users.find? (fun u => u.tg_id == tg) <;> rfl

/-- C3: cb_cancel delegates the cancellation decision to the database
procedure: its externally visible behaviour (procedure calls and UI actions)
does not depend on the sessions table — in particular not on any
cancel_deadline — only on the users and bookings tables and on the
procedure's answer; the only procedure it ever calls is cancel_booking; and
when the procedure answers, that single text result is surfaced. -/
theorem cancel_delegates (db1 db2 : DB)
    (cancelp : Nat → Except (List Char) (List Char))
    (tg : Nat) (name : String) (sid : Nat)
    (hu : db1.users = db2.users) (hn : db1.next_user_id = db2.next_user_id)
    (hbk : db1.bookings = db2.bookings) :
    (cb_cancel_run db1 cancelp tg name sid).2 =
      (cb_cancel_run db2 cancelp tg name sid).2 ∧
    (∀ call ∈ (cb_cancel_run db1 cancelp tg name sid).2.1,
      ∃ bid, call = DBCall.cancel_booking bid) ∧
    (∀ b : Booking, ∀ msg : List Char,
      (ensure_user db1 tg name).2.bookings.find? (fun x =>
        x.user_id == (ensure_user db1 tg name).1 && x.session_id == sid &&
          x.status == "booked") = some b →
      cancelp b.id = Except.ok msg →
      (cb_cancel_run db1 cancelp tg name sid).2.2 =
        surface_result msg "Отменено ✅".data sid) := by
  have h1 : (ensure_user db1 tg name).1 = (ensure_user db2 tg name).1 :=
    ensure_user_fst_congr db1 db2 tg name hu hn
  have h2 : (ensure_user db1 tg name).2.bookings = db1.bookings :=
    ensure_user_bookings db1 tg name
  have h3 : (ensure_user db2 tg name).2.bookings = db2.bookings :=
    ensure_user_bookings db2 tg name
  refine ⟨?_, ?_, ?_⟩
  · unfold cb_cancel_run
    rw [h1, h2, h3, hbk]
    cases db2.bookings.find? (fun x =>
        x.user_id == (ensure_user db2 tg name).1 && x.session_id == sid &&
          x.status == "booked") <;> rfl
  · intro call hcall
    unfold cb_cancel_run at hcall
    cases hfind : (ensure_user db1 tg name).2.bookings.find? (fun x =>
        x.user_id == (ensure_user db1 tg name).1 && x.session_id == sid &&
          x.status == "booked") with
    | none =>
        rw [hfind] at hcall
        cases hcall
    | some b =>
        rw [hfind] at hcall
        rcases List.mem_singleton.mp hcall with rfl
        exact ⟨b.id, rfl⟩
  · intro b msg hfind hok
    simp only [cb_cancel_run, hfind, hok]

/-- Like `exDBBooked` but with a different sessions table (other deadline, capacity,
times) and a different availability view. -/
def exDBOtherSessions : DB :=
  ⟨[exUser], 8, [⟨1, 5000, 6000, 999999, some 4⟩], [exBooking], fun _ => 0⟩

/-- Witness for C3: the two concrete databases differ only in sessions and
availability. -/
theorem cancel_delegates_witness :
    (cb_cancel_run exDBBooked (fun _ => Except.ok "Поздно".data) 42 "Анна" 1).2 =
      (cb_cancel_run exDBOtherSessions (fun _ => Except.ok "Поздно".data)
        42 "Анна" 1).2 ∧
    (∀ call ∈ (cb_cancel_run exDBBooked (fun _ => Except.ok "Поздно".data)
        42 "Анна" 1).2.1,
      ∃ bid, call = DBCall.cancel_booking bid) ∧
    (∀ b : Booking, ∀ msg : List Char,
      (ensure_user exDBBooked 42 "Анна").2.bookings.find? (fun x =>
        x.user_id == (ensure_user exDBBooked 42 "Анна").1 && x.session_id == 1 &&
          x.status == "booked") = some b →
      (fun _ : Nat =>
        (Except.ok "Поздно".data : Except (List Char) (List Char))) b.id =
          Except.ok msg →
      (cb_cancel_run exDBBooked (fun _ => Except.ok "Поздно".data)
          42 "Анна" 1).2.2 =
        surface_result msg "Отменено ✅".data 1) :=
  cancel_delegates exDBBooked exDBOtherSessions
    (fun _ => Except.ok "Поздно".data) 42 "Анна" 1 rfl rfl rfl

/-- C7: on this event each handler invokes its external procedure at most
once (the call trace has at most one element — no retry, no backoff), and
when the procedure raises, the handler catches the exception and displays an
error message that contains the exception text. -/
theorem handlers_call_once (db : DB) (tg : Nat) (name : String) (sid : Nat)
    (kind e : List Char)
    (bookp : Nat → Nat → List Char → Except (List Char) (List Char))
    (cancelp : Nat → Except (List Char) (List Char)) (b : Booking)
    (hb : bookp (ensure_user db tg name).1 sid kind = Except.error e)
    (hf : (ensure_user db tg name).2.bookings.find? (fun x =>
        x.user_id == (ensure_user db tg name).1 && x.session_id == sid &&
          x.status == "booked") = some b)
    (hc : cancelp b.id = Except.error e) :
    (cb_book_run db bookp tg name sid kind).2.1.length ≤ 1 ∧
    (cb_cancel_run db cancelp tg name sid).2.1.length ≤ 1 ∧
    (∃ m, displays (cb_book_run db bookp tg name sid kind).2.2 m ∧ e <:+ m) ∧
    (∃ m, displays (cb_cancel_run db cancelp tg name sid).2.2 m ∧ e <:+ m) := by
  have hlen1 : ("Ошибка записи: ".data).length = 15 := rfl
  have hlen2 : ("Ошибка отмены: ".data).length = 15 := rfl
  have hok : okText.length = 2 := rfl
  have hne1 : "Ошибка записи: ".data ++ e ≠ okText := by
    intro hcontra
    have := congrArg List.length hcontra
    rw [List.length_append, hlen1, hok] at this
    omega
  have hne2 : "Ошибка отмены: ".data ++ e ≠ okText := by
    intro hcontra
    have := congrArg List.length hcontra
    rw [List.length_append, hlen2, hok] at this
    omega
  simp only [cb_book_run, cb_cancel_run, hb, hf, hc]
  refine ⟨by simp, by simp, ?_, ?_⟩
  · exact ⟨"Ошибка записи: ".data ++ e,
      surface_result_not_ok _ _ _ hne1, "Ошибка записи: ".data, rfl⟩
  · exact ⟨"Ошибка отмены: ".data ++ e,
      surface_result_not_ok _ _ _ hne2, "Ошибка отмены: ".data, rfl⟩

/-- Witness for C7: the concrete procedures raise "boom". -/
theorem handlers_call_once_witness :
    (cb_book_run exDBBooked (fun _ _ _ => Except.error "boom".data)
      42 "Анна" 1 "single".data).2.1.length ≤ 1 ∧
    (cb_cancel_run exDBBooked (fun _ => Except.error "boom".data)
      42 "Анна" 1).2.1.length ≤ 1 ∧
    (∃ m, displays (cb_book_run exDBBooked (fun _ _ _ => Except.error "boom".data)
        42 "Анна" 1 "single".data).2.2 m ∧ "boom".data <:+ m) ∧
    (∃ m, displays (cb_cancel_run exDBBooked (fun _ => Except.error "boom".data)
        42 "Анна" 1).2.2 m ∧ "boom".data <:+ m) :=
  handlers_call_once exDBBooked 42 "Анна" 1 "single".data "boom".data
    (fun _ _ _ => Except.error "boom".data) (fun _ => Except.error "boom".data)
    exBooking rfl (by decide) rfl
